import Mathlib

/-!
Shallow embedding of the ClickUp VS Code extension's core
(`src/clickupService.ts` and the tree provider's `updateTask`):
hierarchy walk, pagination, per-list task processing, assignment/status
filtering, the local timer registry with its reconciliation, the
start/stop time-tracking operations against a scripted remote, and the
single-task snapshot refresh.  Remote HTTP responses are modelled as
explicit response values (scripts consumed in call order); the axios
client, logging and VS Code glue are not part of the core being checked.
-/

namespace ClickUp

/-- A JavaScript primitive value as it appears in assignee-id and
`time_spent` positions: either a number or a string. -/
inductive JsVal where
  | vnum (n : Int)
  | vstr (s : String)
deriving DecidableEq

/-- JS truthiness for the values above: `0` and `""` are falsy. -/
def JsVal.truthy : JsVal → Bool
  | .vnum n => n != 0
  | .vstr s => s != ""

/-- `String(v)` on the values above. -/
def JsVal.toStr : JsVal → String
  | .vnum n => toString n
  | .vstr s => s

/-- One element of a task's `assignees` array.  The identity may appear
under `assignee.id`, `assignee.user.id` (modelled as `userId`) or
`assignee.user_id`; `none` stands for an absent (`undefined`) field. -/
structure RawAssignee where
  id : Option JsVal
  userId : Option JsVal
  user_id : Option JsVal
deriving DecidableEq

/-- First truthy value of a `||`-chain, as in
`assignee.id || assignee.user?.id || assignee.user_id`. -/
def firstTruthy : List (Option JsVal) → Option JsVal
  | [] => none
  | none :: rest => firstTruthy rest
  | some v :: rest => if v.truthy then some v else firstTruthy rest

/-- `String(assignee.id || assignee.user?.id || assignee.user_id || '')`:
the canonical identity string of one assignee entry. -/
def normalizeAssignee (a : RawAssignee) : String :=
  match firstTruthy [a.id, a.userId, a.user_id] with
  | some v => v.toStr
  | none => ""

/-- JS `parseInt(s, 10) || 0`: skip leading whitespace, optional sign,
longest digit prefix; no digits (NaN) collapses to 0. -/
def jsParseInt (s : String) : Int :=
  let cs := s.toList.dropWhile (fun c => c.isWhitespace)
  let signAndRest : Bool × List Char :=
    match cs with
    | '-' :: r => (true, r)
    | '+' :: r => (false, r)
    | _ => (false, cs)
  let ds := signAndRest.2.takeWhile (fun c => c.isDigit)
  match ds with
  | [] => 0
  | _ =>
    let n : Nat := ds.foldl (fun a c => a * 10 + (c.toNat - 48)) 0
    if signAndRest.1 then -(n : Int) else (n : Int)

/-- `typeof ts === 'string' ? parseInt(ts, 10) || 0 : Number(ts) || 0`,
with `none` for an absent/null `time_spent` (then `timeTracked = 0`). -/
def parseTimeSpent : Option JsVal → Int
  | none => 0
  | some (.vnum n) => n
  | some (.vstr s) => jsParseInt s

/-- A nested sub-item as returned inside a task's `subtasks` array (the
walk flattens exactly one level, so sub-items carry no further nesting). -/
structure RawSubtask where
  id : String
  name : String
  status : String
  assignees : List RawAssignee
  list : Option String
  time_spent : Option JsVal
deriving DecidableEq

/-- A task as returned by the list-tasks endpoint: identifier, display
name, status label (`status.status`), assignees, owning-list reference,
accumulated `time_spent`, and one level of nested sub-items. -/
structure RawTask where
  id : String
  name : String
  status : String
  assignees : List RawAssignee
  list : Option String
  time_spent : Option JsVal
  subtasks : List RawSubtask
deriving DecidableEq

/-- Owning-space reference stamped onto each processed task. -/
structure SpaceRef where
  id : String
  name : String
deriving DecidableEq

/-- A processed task as held in the in-memory snapshot (`ClickUpTask`
after `getTasksFromList` / `getTask` processing). -/
structure Task where
  id : String
  name : String
  status : String
  assignees : List RawAssignee
  list : Option String
  space : Option SpaceRef
  timeTracked : Int
  isCurrentlyTracked : Bool
deriving DecidableEq

/-- `{...task, space: {id, name}, timeTracked}` for a top-level task. -/
def processTask (sp : SpaceRef) (t : RawTask) : Task :=
  { id := t.id, name := t.name, status := t.status, assignees := t.assignees,
    list := t.list, space := some sp, timeTracked := parseTimeSpent t.time_spent,
    isCurrentlyTracked := false }

/-- `{...subtask, space: {id, name}, timeTracked}` for a nested sub-item. -/
def processSubtask (sp : SpaceRef) (t : RawSubtask) : Task :=
  { id := t.id, name := t.name, status := t.status, assignees := t.assignees,
    list := t.list, space := some sp, timeTracked := parseTimeSpent t.time_spent,
    isCurrentlyTracked := false }

/-- The pagination loop of `getTasksFromList`: starting at page 0, fetch
a page, append its tasks, compute `hasMore = tasks.length === 100`,
increment `page`, break with a logged warning if `page > 100`, otherwise
continue while `hasMore`.  `server p` is the task array of page `p`.
The fuel argument is 101 at the top level, which the ceiling check makes
sufficient; the result is `(allTasks, requestCount, warningLogged)`. -/
def fetchLoop (server : Nat → List RawTask) :
    Nat → Nat → List RawTask → Nat → List RawTask × Nat × Bool
  | 0, _, acc, reqs => (acc, reqs, false)
  | fuel + 1, page, acc, reqs =>
    let tasks := server page
    if 100 < page + 1 then (acc ++ tasks, reqs + 1, true)
    else if tasks.length == 100 then
      fetchLoop server fuel (page + 1) (acc ++ tasks) (reqs + 1)
    else (acc ++ tasks, reqs + 1, false)

/-- Run the pagination loop from `page = 0` with enough fuel for the
`page > 100` safety ceiling. -/
def fetchAllPages (server : Nat → List RawTask) : List RawTask × Nat × Bool :=
  fetchLoop server 101 0 [] 0

/-- One `if (!processedTaskIds.has(id))` step of the per-list processing:
push the processed task and record its identifier unless already seen.
The state is `(processedTasks, processedTaskIds)`. -/
def pushFresh (st : List Task × List String) (id : String) (mk : Task) :
    List Task × List String :=
  if st.2.contains id then st else (st.1 ++ [mk], id :: st.2)

/-- Per-fetched-task step of `getTasksFromList`'s processing loop: the
main task is pushed if unseen, then each nested sub-item is pushed if
unseen (the sub-item loop runs even when the main task was a duplicate). -/
def dedupStep (sp : SpaceRef) (st : List Task × List String) (t : RawTask) :
    List Task × List String :=
  t.subtasks.foldl (fun s sub => pushFresh s sub.id (processSubtask sp sub))
    (pushFresh st t.id (processTask sp t))

/-- The whole per-list processing pass over the concatenated pages: a
fresh `processedTaskIds` set per list, first occurrence wins. -/
def processAllTasks (sp : SpaceRef) (allTasks : List RawTask) : List Task :=
  (allTasks.foldl (dedupStep sp) ([], [])).1

/-- `getTasksFromList`: paginate the list to exhaustion, then process and
deduplicate (within this list only), stamping every kept task with the
given space.  Returns `(tasks, requestCount, ceilingWarningLogged)`. -/
def getTasksFromList (pages : Nat → List RawTask) (space : SpaceRef) :
    List Task × Nat × Bool :=
  let fetched := fetchAllPages pages
  (processAllTasks space fetched.1, fetched.2.1, fetched.2.2)

/-- A list in the hierarchy, abstracted as its paginated task pages. -/
structure ListData where
  pages : Nat → List RawTask

/-- A folder: a sequence of lists. -/
structure FolderData where
  lists : List ListData

/-- A space: its folders (each holding lists) and its folder-less lists,
in the order the remote enumeration returns them. -/
structure SpaceData where
  id : String
  name : String
  folders : List FolderData
  lists : List ListData

/-- Tasks contributed by one list of a space. -/
def tasksOfList (sp : SpaceData) (l : ListData) : List Task :=
  (getTasksFromList l.pages ⟨sp.id, sp.name⟩).1

/-- Tasks contributed by one space: every folder's lists first, then the
folder-less lists, sequentially in enumeration order. -/
def tasksOfSpace (sp : SpaceData) : List Task :=
  (sp.folders.map (fun f => (f.lists.map (tasksOfList sp)).flatten)).flatten
    ++ (sp.lists.map (tasksOfList sp)).flatten

/-- The full hierarchy walk of `getInProgressTasks`: concatenate every
space's tasks (`tasks.push(...listTasks)` across the walk). -/
def walkSpaces (spaces : List SpaceData) : List Task :=
  (spaces.map tasksOfSpace).flatten

/-- The local timer registry `internalTimerStartTimes`: a map from task
identifier to the start instant (ms since epoch), modelled as an
association list with pairwise-distinct keys (the `Map` invariant). -/
abbrev Registry := List (String × Nat)

/-- `Map.has`. -/
def Registry.hasKey (r : Registry) (k : String) : Bool :=
  r.any (fun p => p.1 == k)

/-- `Map.delete`: remove the entry with the given key. -/
def Registry.erase (r : Registry) (k : String) : Registry :=
  r.filter (fun p => p.1 != k)

/-- `Map.set`: overwrite in place when the key exists, append otherwise. -/
def Registry.insert (r : Registry) (k : String) (v : Nat) : Registry :=
  if r.hasKey k then r.map (fun p => if p.1 == k then (k, v) else p)
  else r ++ [(k, v)]

/-- The `Map` well-formedness invariant: keys are pairwise distinct. -/
def RegistryWF (r : Registry) : Prop :=
  (r.map Prod.fst).Nodup

/-- Error kinds surfaced by the service operations: missing API token,
empty team list, wrapped start/stop failures, other remote statuses, and
raw (no-response) errors rethrown as-is. -/
inductive SvcError where
  | noToken
  | noTeams
  | startFailed (msg : String)
  | stopFailed (msg : String)
  | httpError (status : Nat) (msg : String)
  | rawError (msg : String)
deriving DecidableEq

/-- A remote HTTP outcome: a 2xx payload, a non-2xx status with the
remote-supplied message (`error.response.data?.err || error.message`),
or a transport failure with no response object. -/
inductive HttpResp (α : Type) where
  | ok (val : α)
  | errStatus (status : Nat) (msg : String)
  | noResponse (msg : String)
deriving DecidableEq

/-- `getCurrentTimeEntryTaskId`: the payload already carries the task
identifier extracted from the entry (`task?.id || task_id || taskId`,
stringified) or `none` when the entry has no task.  A 404/400 means no
timer is running; every other failure is logged as a warning and also
yields `none` — this helper never throws. -/
def getCurrentTimeEntryTaskId : HttpResp (Option String) → Option String
  | .ok v => v
  | .errStatus _ _ => none
  | .noResponse _ => none

/-- `String.prototype.toLowerCase`, character-wise (kernel-reducible). -/
def jsToLower (s : String) : String :=
  String.mk (s.toList.map Char.toLower)

/-- `String.prototype.trim`: strip leading and trailing whitespace. -/
def jsTrim (s : String) : String :=
  String.mk
    (((s.toList.dropWhile Char.isWhitespace).reverse.dropWhile
        Char.isWhitespace).reverse)

/-- Default `inProgressStatuses` configuration. -/
def defaultInProgressStatuses : List String :=
  ["in progress", "active", "working", "in-progress"]

/-- Configured in-progress statuses (default when unset), each entry
lower-cased (`config.get(...).map(s => s.toLowerCase())`). -/
def loweredStatuses (cfg : Option (List String)) : List String :=
  (cfg.getD defaultInProgressStatuses).map jsToLower

/-- `task.status?.status || task.status || ''`: with the status object
present, an empty label is falsy and the chain falls through to the
status object itself, which stringifies to `"[object Object]"`. -/
def statusValueOf (label : String) : String :=
  if label == "" then "[object Object]" else label

/-- `String(statusValue).toLowerCase().trim()`. -/
def normalizedStatus (t : Task) : String :=
  jsTrim (jsToLower (statusValueOf t.status))

/-- Assignment test: some assignee's canonical identity string equals
the current user's identifier string. -/
def assignedToMe (uid : String) (t : Task) : Bool :=
  (t.assignees.map normalizeAssignee).any (fun s => s == uid)

/-- Status test: the normalized status is a member of the configured
(lower-cased) in-progress status set. -/
def statusTest (statuses : List String) (t : Task) : Bool :=
  statuses.contains (normalizedStatus t)

/-- The client-side filter predicate of `getInProgressTasks`:
`if (!isAssignedToMe) return false; return matches`. -/
def taskPasses (statuses : List String) (uid : String) (t : Task) : Bool :=
  assignedToMe uid t && statusTest statuses t

/-- The marking loop run when a remote current-timer identifier exists:
for each filtered task set `isCurrentlyTracked = (id === tracked)`, and
when tracked but absent from the registry insert a synced entry with
start instant `now` (timer started externally). -/
def markTracked (tid : String) (now : Nat) :
    List Task → Registry → List Task × Registry
  | [], reg => ([], reg)
  | t :: ts, reg =>
    let isTracked := t.id == tid
    let t2 := { t with isCurrentlyTracked := isTracked }
    let reg2 :=
      if isTracked && !(reg.hasKey t.id) then reg.insert t.id now else reg
    let rest := markTracked tid now ts reg2
    (t2 :: rest.1, rest.2)

/-- Environment of one `getInProgressTasks` run: whether an API token is
configured (settings or environment fallback), the team enumeration, the
optional `inProgressStatuses` configuration, the current user's
stringified identifier, the current-time-entry response, the hierarchy
served by the remote, and the clock value `Date.now()` returns. -/
structure FetchEnv where
  hasToken : Bool
  teams : List String
  cfgStatuses : Option (List String)
  currentUserId : String
  currentResp : HttpResp (Option String)
  spaces : List SpaceData
  now : Nat

/-- All tasks collected by the walk for this environment. -/
def walkAllTasks (env : FetchEnv) : List Task :=
  walkSpaces env.spaces

/-- The client-side filtered task set of `getInProgressTasks`. -/
def filteredTasksOf (env : FetchEnv) : List Task :=
  (walkAllTasks env).filter
    (taskPasses (loweredStatuses env.cfgStatuses) env.currentUserId)

/-- `getInProgressTasks`: token and team checks, resolve the remote
current timer, walk and filter, then reconcile the registry — delete
every entry whose key differs from the remote identifier and run the
marking loop, or clear the registry entirely when the remote reports no
timer.  Returns the filtered (and marked) tasks with the new registry. -/
def getInProgressTasks (env : FetchEnv) (reg : Registry) :
    Except SvcError (List Task × Registry) :=
  if env.hasToken = false then .error .noToken
  else if env.teams = [] then .error .noTeams
  else
    let tid? := getCurrentTimeEntryTaskId env.currentResp
    let filtered := filteredTasksOf env
    match tid? with
    | some tid =>
      let reg1 := reg.filter (fun p => p.1 == tid)
      let marked := markTracked tid env.now filtered reg1
      .ok (marked.1, marked.2)
    | none =>
      .ok (filtered, if reg.isEmpty then reg else [])

/-- Environment shared by the start/stop operations: token presence,
team enumeration and the clock. -/
structure TimerEnv where
  hasToken : Bool
  teams : List String
  now : Nat

/-- The mutable service state the start/stop operations thread: the
timer registry plus the remaining scripted responses of the
current-time-entry endpoint and of the stop endpoint (one entry consumed
per remote call, in call order). -/
structure SvcState where
  reg : Registry
  currentScript : List (HttpResp (Option String))
  stopScript : List (HttpResp Unit)
deriving DecidableEq

/-- Consume the next scripted response; an exhausted script behaves as a
transport failure. -/
def nextResp {α : Type} : List (HttpResp α) → HttpResp α × List (HttpResp α)
  | [] => (.noResponse "script exhausted", [])
  | r :: rest => (r, rest)

/-- `stopTimeTracking`: after the token/team checks, resolve the
currently tracked task identifier (before stopping), call the stop
endpoint, and on success delete the resolved entry — or clear a
non-empty registry when nothing was resolved — returning the resolved
identifier.  A 400/404 from the stop endpoint means no timer was
running: return `none` without touching the registry.  Other response
errors surface as a stop failure, transport errors are rethrown. -/
def stopTimeTracking (env : TimerEnv) (st : SvcState) :
    Except SvcError (Option String) × SvcState :=
  if env.hasToken = false then (.error .noToken, st)
  else if env.teams = [] then (.error .noTeams, st)
  else
    let c := nextResp st.currentScript
    let cur := getCurrentTimeEntryTaskId c.1
    let s := nextResp st.stopScript
    let st2 : SvcState := { st with currentScript := c.2, stopScript := s.2 }
    match s.1 with
    | .ok _ =>
      let reg2 :=
        match cur with
        | some tid => st2.reg.erase tid
        | none => if st2.reg.isEmpty then st2.reg else []
      (.ok cur, { st2 with reg := reg2 })
    | .errStatus status msg =>
      if status == 400 || status == 404 then (.ok none, st2)
      else (.error (.stopFailed msg), st2)
    | .noResponse msg => (.error (.rawError msg), st2)

/-- Character-list prefix test (kernel-reducible). -/
def isPrefixChars : List Char → List Char → Bool
  | [], _ => true
  | _ :: _, [] => false
  | p :: ps, c :: cs => p == c && isPrefixChars ps cs

/-- Character-list infix test. -/
def includesChars (pat : List Char) : List Char → Bool
  | [] => isPrefixChars pat []
  | c :: cs => isPrefixChars pat (c :: cs) || includesChars pat cs

/-- JS `String.prototype.includes`. -/
def strIncludes (s pat : String) : Bool :=
  includesChars pat.toList s.toList

/-- `startTimeTracking(taskId)`: after the token/team checks, call the
start endpoint (consuming the next start-script entry).  On success,
insert a registry entry for `taskId` with start instant `now`.  On a 400
whose message contains `"already running"`, call `stopTimeTracking`
(mutating the registry) and recursively retry with the rest of the
script — the real code re-invokes the whole method, so the recovery
repeats for every consecutive already-running response.  Other response
errors surface as a start failure, transport errors are rethrown.
Returns the outcome, the unconsumed start script and the final state. -/
def startTimeTracking (env : TimerEnv) (taskId : String) :
    List (HttpResp Unit) → SvcState →
    Except SvcError Unit × List (HttpResp Unit) × SvcState
  | script, st =>
    if env.hasToken = false then (.error .noToken, script, st)
    else if env.teams = [] then (.error .noTeams, script, st)
    else
      match script with
      | [] => (.error (.rawError "script exhausted"), [], st)
      | .ok _ :: rest =>
        (.ok (), rest, { st with reg := st.reg.insert taskId env.now })
      | .errStatus status msg :: rest =>
        if status == 400 && strIncludes msg "already running" then
          match stopTimeTracking env st with
          | (.ok _, st2) => startTimeTracking env taskId rest st2
          | (.error e, st2) => (.error e, rest, st2)
        else (.error (.startFailed msg), rest, st)
      | .noResponse msg :: rest => (.error (.rawError msg), rest, st)

/-- `getTask(taskId)`: token check, then fetch; a 404 is an explicit
"absent" result (`null`), other response errors and transport errors are
rethrown.  The payload is the already-processed task object
(`{...task, space, timeTracked}`). -/
def getTask (hasToken : Bool) (resp : HttpResp Task) :
    Except SvcError (Option Task) :=
  if hasToken = false then .error .noToken
  else
    match resp with
    | .ok t => .ok (some t)
    | .errStatus status msg =>
      if status == 404 then .ok none else .error (.httpError status msg)
    | .noResponse msg => .error (.rawError msg)

/-- The merge performed by the provider's `updateTask` when the task is
found and present in the snapshot: keep the existing owning list, keep
the existing space when the single-task fetch returned none, and set
`isCurrentlyTracked` from the registry membership test. -/
def mergeTask (existing updated : Task) (tracked : Bool) : Task :=
  let u1 := { updated with list := existing.list }
  let u2 :=
    if existing.space.isSome && u1.space.isNone then
      { u1 with space := existing.space }
    else u1
  { u2 with isCurrentlyTracked := tracked }

/-- `ClickUpTasksProvider.updateTask(taskId)` over the fetch outcome of
`getTask`: not found removes the task from the snapshot; found replaces
the first snapshot entry with that identifier via `mergeTask` (found but
absent from the snapshot changes nothing); a fetch error falls back to a
full refresh.  Returns `(newSnapshot, fullRefreshTriggered)`. -/
def updateTask (reg : Registry) (snapshot : List Task) (taskId : String)
    (fetched : Except SvcError (Option Task)) : List Task × Bool :=
  match fetched with
  | .error _ => (snapshot, true)
  | .ok none => (snapshot.filter (fun t => !(t.id == taskId)), false)
  | .ok (some u) =>
    match snapshot.findIdx? (fun t => t.id == taskId) with
    | some i =>
      match snapshot[i]? with
      | some existing =>
        (snapshot.set i (mergeTask existing u (reg.hasKey taskId)), false)
      | none => (snapshot, false)
    | none => (snapshot, false)

/-! Concrete instances used to instantiate the verification results. -/

/-- A raw task with identifier `t1`, assigned to user `7`, status
`in progress`. -/
def rawT : RawTask :=
  ⟨"t1", "Task", "in progress", [⟨some (.vstr "7"), none, none⟩], none, none, []⟩

/-- A one-page list whose only page holds `rawT`. -/
def onePage : Nat → List RawTask := fun p => if p = 0 then [rawT] else []

/-- An environment where the same task is served both by a folder list
and by a folder-less list of the same space. -/
def env1 : FetchEnv :=
  { hasToken := true, teams := ["T"], cfgStatuses := none, currentUserId := "7",
    currentResp := .errStatus 404 "", now := 0,
    spaces := [{ id := "S", name := "Space",
                 folders := [⟨[⟨onePage⟩]⟩], lists := [⟨onePage⟩] }] }

/-- A full page: exactly 100 tasks. -/
def fullPage : List RawTask := List.replicate 100 rawT

/-- A server producing 101 full pages (pages 0 through 100) and then a
0-sized page. -/
def cexServer : Nat → List RawTask := fun p => if p < 101 then fullPage else []

/-- A server producing one full page and then a 0-sized page. -/
def witServer : Nat → List RawTask := fun p => if p = 0 then fullPage else []

/-- A timer environment with a configured token and one team. -/
def envT : TimerEnv := ⟨true, ["T"], 0⟩

/-- The 400 response whose message reports an already-running timer. -/
def arResp : HttpResp Unit := .errStatus 400 "Timer is already running"

/-- State for the repeated-recovery run: task `A` locally tracked, the
current-timer query resolving `A` first and nothing afterwards. -/
def stC4 : SvcState :=
  ⟨[("A", 5)], [.ok (some "A"), .ok none], [.ok (), .ok ()]⟩

/-- State for the start-then-switch scenario: task `A` tracked locally
and remotely. -/
def stWit : SvcState := ⟨[("A", 41)], [.ok (some "A")], [.ok ()]⟩

/-- State where the current timer resolves to `A` but the stop endpoint
answers 404. -/
def stC5 : SvcState := ⟨[("A", 5)], [.ok (some "A")], [.errStatus 404 "no timer"]⟩

/-- State where recovery stops tracked task `A` successfully before the
retried start fails. -/
def stC10 : SvcState := ⟨[("A", 5)], [.ok (some "A")], [.ok ()]⟩

/-- State whose current-timer query answers 500. -/
def stC8 : SvcState := ⟨[], [.errStatus 500 "boom"], [.ok ()]⟩

/-- A fetch environment with no API token configured. -/
def envNoTok : FetchEnv :=
  ⟨false, [], none, "", .errStatus 404 "", [], 0⟩

/-- A timer environment with no API token configured. -/
def envTN : TimerEnv := ⟨false, [], 0⟩

/-- An environment whose walk yields `rawT` once and whose remote
current timer reports `t1`. -/
def env3 : FetchEnv :=
  { hasToken := true, teams := ["T"], cfgStatuses := none, currentUserId := "7",
    currentResp := .ok (some "t1"), now := 0,
    spaces := [{ id := "S", name := "Space", folders := [], lists := [⟨onePage⟩] }] }

/-- The processed and marked form of `rawT` after the `env3` run. -/
def taskT1 : Task :=
  { id := "t1", name := "Task", status := "in progress",
    assignees := [⟨some (.vstr "7"), none, none⟩], list := none,
    space := some ⟨"S", "Space"⟩, timeTracked := 0, isCurrentlyTracked := true }

/-- A raw task whose status label carries mixed case and padding. -/
def rawStat : RawTask :=
  ⟨"x", "n", " In Progress ", [⟨some (.vstr "7"), none, none⟩], none, none, []⟩

/-- The processed form of `rawStat`. -/
def tStat : Task := processTask ⟨"S", "Space"⟩ rawStat

/-- An environment whose walk yields `rawStat` once. -/
def envC6 : FetchEnv :=
  { hasToken := true, teams := ["T"], cfgStatuses := none, currentUserId := "7",
    currentResp := .errStatus 404 "", now := 0,
    spaces := [{ id := "S", name := "Space", folders := [],
                 lists := [⟨fun p => if p = 0 then [rawStat] else []⟩] }] }

/-- A raw task assigned to user `9` (not the current user) with a
passing status. -/
def rawC7 : RawTask :=
  ⟨"y", "m", "in progress", [⟨some (.vstr "9"), none, none⟩], none, none, []⟩

/-- The processed form of `rawC7`. -/
def tC7 : Task := processTask ⟨"S", "Space"⟩ rawC7

/-- An environment whose walk yields `rawC7` once, current user `7`. -/
def envC7 : FetchEnv :=
  { hasToken := true, teams := ["T"], cfgStatuses := none, currentUserId := "7",
    currentResp := .errStatus 404 "", now := 0,
    spaces := [{ id := "S", name := "Space", folders := [],
                 lists := [⟨fun p => if p = 0 then [rawC7] else []⟩] }] }

/-- A snapshot task for the single-task-refresh instance. -/
def snapX : Task :=
  ⟨"x1", "X", "in progress", [], some "L", some ⟨"S", "Sp"⟩, 0, false⟩

/-- The refetched form of `snapX`: no list, no space returned. -/
def updX : Task := ⟨"x1", "X2", "done", [], none, none, 7, false⟩

/-- A registry containing the refreshed task's identifier. -/
def regW : Registry := [("x1", 9)]

/-! Verification results. -/

/-- C9: the single-task refresh removes the task from the snapshot when
the fetch reports it not found (raising no error and no full refresh);
when the task is found and present, it replaces the first snapshot entry
with the same identifier, keeping the owning list, keeping the space when
the fetch returned none, and recomputing `isCurrentlyTracked` as the
registry membership test; any other fetch failure triggers a full
refresh instead of leaving the snapshot stale. -/
theorem C9_update_task :
    ∀ (reg : Registry) (snapshot : List Task) (taskId : String)
      (u existing : Task) (i : Nat) (e : SvcError),
      updateTask reg snapshot taskId (.ok none) =
        (snapshot.filter (fun t => !(t.id == taskId)), false) ∧
      (snapshot.findIdx? (fun t => t.id == taskId) = some i →
        snapshot[i]? = some existing →
        updateTask reg snapshot taskId (.ok (some u)) =
          (snapshot.set i (mergeTask existing u (reg.hasKey taskId)), false)) ∧
      (mergeTask existing u (reg.hasKey taskId)).list = existing.list ∧
      (u.space = none →
        (mergeTask existing u (reg.hasKey taskId)).space = existing.space) ∧
      (mergeTask existing u (reg.hasKey taskId)).isCurrentlyTracked
        = reg.hasKey taskId ∧
      updateTask reg snapshot taskId (.error e) = (snapshot, true) := by
  intro reg snapshot taskId u existing i e
  refine ⟨rfl, ?_, ?_, ?_, rfl, rfl⟩
  · intro h1 h2
    simp [updateTask, h1, h2]
  · simp only [mergeTask]
    split <;> rfl
  · intro hu
    cases hs : existing.space <;> simp [mergeTask, hu, hs]

/-- C9 witness: refreshing task `x1` in a one-task snapshot replaces the
entry via the merge, whose tracked flag equals the registry test. -/
theorem C9_witness :
    updateTask regW [snapX] "x1" (.ok (some updX)) =
      ([snapX].set 0 (mergeTask snapX updX (Registry.hasKey regW "x1")), false) ∧
    (mergeTask snapX updX (Registry.hasKey regW "x1")).space = snapX.space := by
  have h := C9_update_task regW [snapX] "x1" updX snapX 0 (.rawError "")
  exact ⟨h.2.1 (by decide) (by decide), h.2.2.2.1 (by decide)⟩

/-- C8 (amended): every public operation fails with the
token-not-configured error when no credential is present; a 400/404 on
the current-timer query yields no identifier and no error; and any other
response error on that query is likewise swallowed, yielding no
identifier rather than surfacing a remote error. -/
theorem C8_error_handling :
    (∀ (env : FetchEnv) (reg : Registry), env.hasToken = false →
      getInProgressTasks env reg = .error .noToken) ∧
    (∀ (env : TimerEnv) (tid : String) (script : List (HttpResp Unit))
      (st : SvcState), env.hasToken = false →
      (startTimeTracking env tid script st).1 = .error .noToken) ∧
    (∀ (env : TimerEnv) (st : SvcState), env.hasToken = false →
      (stopTimeTracking env st).1 = .error .noToken) ∧
    (∀ (resp : HttpResp Task), getTask false resp = .error .noToken) ∧
    (∀ (msg : String), getCurrentTimeEntryTaskId (.errStatus 400 msg) = none ∧
      getCurrentTimeEntryTaskId (.errStatus 404 msg) = none) ∧
    (∀ (status : Nat) (msg : String),
      getCurrentTimeEntryTaskId (.errStatus status msg) = none) := by
  refine ⟨?_, ?_, ?_, ?_, ?_, ?_⟩
  · intro env reg h
    simp [getInProgressTasks, h]
  · intro env tid script st h
    cases script with
    | nil => simp [startTimeTracking, h]
    | cons r rest => cases r <;> simp [startTimeTracking, h]
  · intro env st h
    simp [stopTimeTracking, h]
  · intro resp
    simp [getTask]
  · intro msg
    exact ⟨rfl, rfl⟩
  · intro status msg
    rfl

/-- C8 counterexample: a 500 on the current-timer query does not surface
a remote error — the query yields no identifier and the surrounding stop
operation still succeeds (the code logs a warning and returns null). -/
theorem C8_counterexample :
    getCurrentTimeEntryTaskId (.errStatus 500 "boom") = none ∧
    stopTimeTracking envT stC8 = (.ok none, ⟨[], [], []⟩) :=
  ⟨rfl, rfl⟩

/-- C8 witness: the token-absence and benign-404 branches at concrete
inputs. -/
theorem C8_witness :
    getInProgressTasks envNoTok [] = .error .noToken ∧
    (stopTimeTracking envTN ⟨[], [], []⟩).1 = .error .noToken ∧
    getCurrentTimeEntryTaskId (.errStatus 400 "err") = none :=
  ⟨C8_error_handling.1 envNoTok [] rfl,
   C8_error_handling.2.2.1 envTN ⟨[], [], []⟩ rfl,
   (C8_error_handling.2.2.2.2.1 "err").1⟩

/-- C5 (amended): `stopTimeTracking` resolves the currently tracked
identifier before issuing the stop call; when the stop call succeeds, the
resolved identifier's registry entry is deleted — or a non-empty registry
is cleared when nothing was resolved — and the resolved identifier is
returned; when the stop endpoint responds 400/404 the call returns no
identifier and leaves the registry unchanged (even if an identifier was
resolved); any other stop-response failure surfaces as an error with the
remote message, also leaving the registry unchanged. -/
theorem C5_stop_behavior :
    ∀ (env : TimerEnv) (reg : Registry) (cresp : HttpResp (Option String))
      (cs : List (HttpResp (Option String))) (sresp : HttpResp Unit)
      (ss : List (HttpResp Unit)),
      env.hasToken = true → env.teams ≠ [] →
      (sresp = .ok () →
        stopTimeTracking env ⟨reg, cresp :: cs, sresp :: ss⟩ =
          (.ok (getCurrentTimeEntryTaskId cresp),
           ⟨match getCurrentTimeEntryTaskId cresp with
             | some tid => reg.erase tid
             | none => if reg.isEmpty then reg else [], cs, ss⟩)) ∧
      (∀ (status : Nat) (msg : String), sresp = .errStatus status msg →
        (status = 400 ∨ status = 404) →
        stopTimeTracking env ⟨reg, cresp :: cs, sresp :: ss⟩ =
          (.ok none, ⟨reg, cs, ss⟩)) ∧
      (∀ (status : Nat) (msg : String), sresp = .errStatus status msg →
        status ≠ 400 → status ≠ 404 →
        stopTimeTracking env ⟨reg, cresp :: cs, sresp :: ss⟩ =
          (.error (.stopFailed msg), ⟨reg, cs, ss⟩)) := by
  intro env reg cresp cs sresp ss htok hteams
  refine ⟨?_, ?_, ?_⟩
  · intro hs
    subst hs
    simp [stopTimeTracking, htok, hteams, nextResp]
  · intro status msg hs hbenign
    subst hs
    rcases hbenign with h4 | h4 <;> subst h4 <;>
      simp [stopTimeTracking, htok, hteams, nextResp]
  · intro status msg hs h400 h404
    subst hs
    have b1 : (status == 400) = false := by simpa using h400
    have b2 : (status == 404) = false := by simpa using h404
    simp [stopTimeTracking, htok, hteams, nextResp, b1, b2]

/-- C5 counterexample: the current-timer query resolves identifier `A`,
the stop endpoint answers 404, and the call returns no identifier while
`A`'s registry entry is left in place — the resolved identifier's entry
is not deleted. -/
theorem C5_counterexample :
    getCurrentTimeEntryTaskId (.ok (some "A")) = some "A" ∧
    stopTimeTracking envT stC5 = (.ok none, ⟨[("A", 5)], [], []⟩) ∧
    Registry.hasKey [("A", 5)] "A" = true :=
  ⟨rfl, rfl, rfl⟩

/-- C5 witness: a successful stop with resolved identifier `A` deletes
its registry entry and returns it. -/
theorem C5_witness :
    stopTimeTracking envT ⟨[("A", 5)], [.ok (some "A")], [.ok ()]⟩ =
      (.ok (getCurrentTimeEntryTaskId (.ok (some "A"))),
       ⟨match getCurrentTimeEntryTaskId (.ok (some "A")) with
         | some tid => Registry.erase [("A", 5)] tid
         | none =>
           if ([("A", 5)] : Registry).isEmpty then [("A", 5)] else [],
        [], []⟩) :=
  (C5_stop_behavior envT [("A", 5)] (.ok (some "A")) [] (.ok ()) []
    rfl (by simp [envT])).1 rfl

/-- C6: a fetched task with a (non-empty) status label is kept by the
client-side filter exactly when it came from the walk, is assigned to the
current user, and its label — lower-cased and trimmed — is a member of
the configured in-progress status set (each entry lower-cased, defaulting
to in progress / active / working / in-progress); both the assignment
test and the status test must pass. -/
theorem C6_status_filter :
    ∀ (env : FetchEnv) (t : Task), t.status ≠ "" →
      (t ∈ filteredTasksOf env ↔
        (t ∈ walkAllTasks env ∧ assignedToMe env.currentUserId t = true ∧
          (loweredStatuses env.cfgStatuses).contains
            (jsTrim (jsToLower t.status)) = true)) := by
  intro env t hstat
  have hb : (t.status == "") = false := by simpa using hstat
  simp [filteredTasksOf, List.mem_filter, taskPasses, statusTest,
    normalizedStatus, statusValueOf, hb, Bool.and_eq_true, and_assoc]

/-- C6 witness: the task with status label `" In Progress "` (assigned to
the current user) is kept under the default configuration, whose entry
`"in progress"` matches after lower-casing and trimming. -/
theorem C6_witness : tStat ∈ filteredTasksOf envC6 :=
  (C6_status_filter envC6 tStat (by decide)).mpr
    ⟨by decide, by decide, by decide⟩

/-- C7: a task is classified as assigned to the current user exactly when
some assignee entry, normalized through the three supported identity
shapes into a canonical string, equals the user's identifier string; a
task with no matching normalized assignee is excluded from the filtered
result regardless of its status; and each of the three shapes alone
normalizes to its stringified value. -/
theorem C7_assignment_filter :
    ∀ (env : FetchEnv) (t : Task),
      (assignedToMe env.currentUserId t = true ↔
        ∃ a ∈ t.assignees, normalizeAssignee a = env.currentUserId) ∧
      (assignedToMe env.currentUserId t = false → t ∉ filteredTasksOf env) ∧
      (∀ v : JsVal, v.truthy = true →
        normalizeAssignee ⟨some v, none, none⟩ = v.toStr ∧
        normalizeAssignee ⟨none, some v, none⟩ = v.toStr ∧
        normalizeAssignee ⟨none, none, some v⟩ = v.toStr) := by
  intro env t
  refine ⟨?_, ?_, ?_⟩
  · simp [assignedToMe, List.any_eq_true]
  · intro hno hmem
    rcases (List.mem_filter.mp hmem) with ⟨_, hpass⟩
    rcases (Bool.and_eq_true _ _).mp hpass with ⟨ha, _⟩
    rw [ha] at hno
    exact Bool.true_eq_false.mp hno
  · intro v hv
    refine ⟨?_, ?_, ?_⟩ <;> simp [normalizeAssignee, firstTruthy, hv]

/-- C7 witness: a task whose only assignee normalizes to `"9"` is not
assigned to current user `"7"` and is excluded from the filtered result
although its status passes; a nested `user.id` shape normalizes to its
stringified value. -/
theorem C7_witness :
    assignedToMe envC7.currentUserId tC7 = false ∧
    tC7 ∉ filteredTasksOf envC7 ∧
    normalizeAssignee ⟨none, some (.vnum 7), none⟩ = (JsVal.vnum 7).toStr := by
  refine ⟨by decide, (C7_assignment_filter envC7 tC7).2.1 (by decide),
    ((C7_assignment_filter envC7 tC7).2.2 (.vnum 7) (by decide)).2.1⟩

/-- A registry whose keys are pairwise distinct and all equal to one
identifier has at most one entry. -/
theorem length_le_one_of_all_keys (tid : String) :
    ∀ (l : Registry), (l.map Prod.fst).Nodup → (∀ p ∈ l, p.1 = tid) →
      l.length ≤ 1 := by
  intro l hnd hall
  match l with
  | [] => simp
  | [p] => simp
  | p :: q :: rest =>
    exfalso
    have hp : p.1 = tid := hall p (by simp)
    have hq : q.1 = tid := hall q (by simp)
    simp [hp, hq] at hnd

/-- The marking loop preserves the invariant that every registry entry
is keyed by the tracked identifier and that there is at most one. -/
theorem markTracked_inv (tid : String) (now : Nat) :
    ∀ (ts : List Task) (reg : Registry),
      (∀ p ∈ reg, p.1 = tid) → reg.length ≤ 1 →
      (∀ p ∈ (markTracked tid now ts reg).2, p.1 = tid) ∧
        (markTracked tid now ts reg).2.length ≤ 1 := by
  intro ts
  induction ts with
  | nil =>
    intro reg hall hlen
    exact ⟨fun p hp => hall p hp, hlen⟩
  | cons t ts ih =>
    intro reg hall hlen
    have hstep : (markTracked tid now (t :: ts) reg).2
        = (markTracked tid now ts
            (if (t.id == tid) && !(reg.hasKey t.id) then reg.insert t.id now
             else reg)).2 := by
      simp [markTracked]
    rw [hstep]
    by_cases hc : ((t.id == tid) && !(Registry.hasKey reg t.id)) = true
    · rw [if_pos hc]
      rcases (Bool.and_eq_true _ _).mp hc with ⟨hid', hkey'⟩
      have hid : t.id = tid := by simpa using hid'
      have hkey : Registry.hasKey reg t.id = false := by
        simpa using hkey'
      have hreg : reg = [] := by
        cases reg with
        | nil => rfl
        | cons q qs =>
          exfalso
          have hq : q.1 = tid := hall q (by simp)
          simp [Registry.hasKey, hq, hid] at hkey
      subst hreg
      have hins : Registry.insert [] t.id now = [(t.id, now)] := rfl
      rw [hins]
      refine ih [(t.id, now)] ?_ (by simp)
      intro p hp
      have : p = (t.id, now) := by simpa using hp
      rw [this]
      exact hid
    · rw [if_neg hc]
      exact ih reg hall hlen

/-- C2: after every reconciliation run performed by a completed
`getInProgressTasks` fetch, the local timer registry holds at most one
entry; when non-empty its key is the identifier the remote reported as
currently tracked, and when the remote reported no timer the registry is
empty. -/
theorem C2_reconciliation_invariant :
    ∀ (env : FetchEnv) (reg : Registry) (out : List Task) (reg' : Registry),
      RegistryWF reg →
      getInProgressTasks env reg = .ok (out, reg') →
      (getCurrentTimeEntryTaskId env.currentResp = none → reg' = []) ∧
      (∀ tid, getCurrentTimeEntryTaskId env.currentResp = some tid →
        reg'.length ≤ 1 ∧ ∀ p ∈ reg', p.1 = tid) := by
  intro env reg out reg' hWF hok
  by_cases h1 : env.hasToken = false
  · simp [getInProgressTasks, h1] at hok
  by_cases h2 : env.teams = []
  · simp [getInProgressTasks, h1, h2] at hok
  rcases htid : getCurrentTimeEntryTaskId env.currentResp with _ | tid
  · simp [getInProgressTasks, h1, h2, htid] at hok
    refine ⟨fun _ => ?_, fun tid h => by cases h⟩
    cases reg with
    | nil => simpa using hok.2.symm
    | cons q qs => simpa using hok.2.symm
  · simp [getInProgressTasks, h1, h2, htid] at hok
    have hreg2 := congrArg Prod.snd hok
    have hall : ∀ p ∈ reg.filter (fun p => p.1 == tid), p.1 = tid := by
      intro p hp
      have := List.of_mem_filter hp
      simpa using this
    have hnd : ((reg.filter (fun p => p.1 == tid)).map Prod.fst).Nodup :=
      ((List.filter_sublist reg).map Prod.fst).nodup hWF
    have hlen := length_le_one_of_all_keys tid _ hnd hall
    have hinv := markTracked_inv tid env.now (filteredTasksOf env) _ hall hlen
    constructor
    · intro h
      cases h
    · intro tid2 h
      injection h with h3
      subst h3
      have hreg3 : (markTracked tid env.now (filteredTasksOf env)
          (reg.filter (fun p => p.1 == tid))).2 = reg' := hreg2
      rw [← hreg3]
      exact ⟨hinv.2, hinv.1⟩

/-- C2 witness: a concrete run whose remote reports `t1` leaves the
registry with the single synced entry for `t1`. -/
theorem C2_witness :
    getInProgressTasks env3 [("old", 3)] = .ok ([taskT1], [("t1", 0)]) ∧
    ([("t1", (0 : Nat))] : Registry).length ≤ 1 :=
  ⟨rfl,
   ((C2_reconciliation_invariant env3 [("old", 3)] [taskT1] [("t1", 0)]
      (by simp [RegistryWF]) rfl).2 "t1" rfl).1⟩

/-- Invariant of the per-list processing state: kept identifiers are
pairwise distinct and every kept identifier has been recorded as seen. -/
def DedupInv (st : List Task × List String) : Prop :=
  (st.1.map Task.id).Nodup ∧ ∀ x ∈ st.1, x.id ∈ st.2

/-- `pushFresh` preserves the processing invariant when the pushed task
carries the recorded identifier. -/
theorem pushFresh_inv {st : List Task × List String} {id : String} {mk : Task}
    (hinv : DedupInv st) (hid : mk.id = id) : DedupInv (pushFresh st id mk) := by
  by_cases hm : id ∈ st.2
  · have hpf : pushFresh st id mk = st := by simp [pushFresh, hm]
    rw [hpf]
    exact hinv
  · have hpf : pushFresh st id mk = (st.1 ++ [mk], id :: st.2) := by
      simp [pushFresh, hm]
    rw [hpf]
    constructor
    · rw [List.map_append]
      refine List.Nodup.append hinv.1 (by simp) ?_
      intro a ha hb
      have hb2 : a = id := by simpa [hid] using hb
      subst hb2
      rcases List.mem_map.mp ha with ⟨x, hx, hxa⟩
      have hmem := hinv.2 x hx
      rw [hxa] at hmem
      exact hm hmem
    · intro x hx
      rcases List.mem_append.mp hx with h | h
      · exact List.mem_cons_of_mem _ (hinv.2 x h)
      · have hxmk : x = mk := by simpa using h
        subst hxmk
        simp [hid]

/-- The sub-item loop of one processing step preserves the invariant. -/
theorem subFold_inv (sp : SpaceRef) :
    ∀ (subs : List RawSubtask) (st : List Task × List String), DedupInv st →
      DedupInv (subs.foldl
        (fun s sub => pushFresh s sub.id (processSubtask sp sub)) st) := by
  intro subs
  induction subs with
  | nil => intro st h; exact h
  | cons sub subs ih =>
    intro st h
    exact ih _ (pushFresh_inv h rfl)

/-- One full processing step (main task, then its sub-items) preserves
the invariant. -/
theorem dedupStep_inv (sp : SpaceRef) {st : List Task × List String}
    (h : DedupInv st) (t : RawTask) : DedupInv (dedupStep sp st t) :=
  subFold_inv sp t.subtasks _ (pushFresh_inv h rfl)

/-- The processing fold over all fetched pages preserves the invariant. -/
theorem foldDedup_inv (sp : SpaceRef) :
    ∀ (ts : List RawTask) (st : List Task × List String), DedupInv st →
      DedupInv (ts.foldl (dedupStep sp) st) := by
  intro ts
  induction ts with
  | nil => intro st h; exact h
  | cons t ts ih =>
    intro st h
    exact ih _ (dedupStep_inv sp h t)

/-- C1 (amended): deduplication is per list, not across the walk — within
a single list's fetch (its pages plus one level of nested sub-items) each
task identifier appears at most once, first occurrence winning and
stamped with that list's space; no seen-set spans the walk, so an
identifier returned by several lists appears once for each such list in
the walk's output (see the counterexample). -/
theorem C1_dedup_per_list :
    ∀ (pages : Nat → List RawTask) (space : SpaceRef),
      (((getTasksFromList pages space).1).map Task.id).Nodup := by
  intro pages space
  have h := foldDedup_inv space (fetchAllPages pages).1 ([], [])
    ⟨by simp, by simp⟩
  exact h.1

/-- C1 counterexample: with the same task (identifier `t1`, assigned to
the current user, status in the configured set) served both by a folder
list and by a folder-less list of one space, the walk's output contains
`t1` twice — the seen-set does not span the walk. -/
theorem C1_counterexample :
    getInProgressTasks env1 [] = .ok (filteredTasksOf env1, []) ∧
    (filteredTasksOf env1).countP (fun t => t.id == "t1") = 2 :=
  ⟨rfl, rfl⟩

/-- One pagination step on a full page below the ceiling recurses. -/
theorem fetchLoop_step_full {server : Nat → List RawTask}
    {fuel page : Nat} {acc : List RawTask} {reqs : Nat}
    (h1 : page + 1 ≤ 100) (h2 : (server page).length = 100) :
    fetchLoop server (fuel + 1) page acc reqs
      = fetchLoop server fuel (page + 1) (acc ++ server page) (reqs + 1) := by
  have hng : ¬ (100 < page + 1) := by omega
  simp [fetchLoop, hng, h2]

/-- One pagination step on a short page below the ceiling stops without
the ceiling warning. -/
theorem fetchLoop_step_short {server : Nat → List RawTask}
    {fuel page : Nat} {acc : List RawTask} {reqs : Nat}
    (h1 : page + 1 ≤ 100) (h2 : (server page).length ≠ 100) :
    fetchLoop server (fuel + 1) page acc reqs
      = (acc ++ server page, reqs + 1, false) := by
  have hng : ¬ (100 < page + 1) := by omega
  have hb : ((server page).length == 100) = false := by simpa using h2
  simp [fetchLoop, hng, hb]

/-- One pagination step at the ceiling stops with the warning. -/
theorem fetchLoop_step_ceiling {server : Nat → List RawTask}
    {fuel page : Nat} {acc : List RawTask} {reqs : Nat}
    (h1 : 100 < page + 1) :
    fetchLoop server (fuel + 1) page acc reqs
      = (acc ++ server page, reqs + 1, true) := by
  simp [fetchLoop, h1]

/-- Request count of a run over `N` full pages followed by a short page,
for `N` within the ceiling: one request per full page plus the final
short one, with the ceiling warning exactly when `N = 100`. -/
theorem fetchLoop_count_short (server : Nat → List RawTask) (N : Nat)
    (hshort : (server N).length < 100) (hN : N ≤ 100) :
    ∀ (fuel page : Nat) (acc : List RawTask) (reqs : Nat),
      fuel + page = 101 → page ≤ N →
      (∀ p, page ≤ p → p < N → (server p).length = 100) →
      (fetchLoop server fuel page acc reqs).2
        = (reqs + (N - page) + 1, decide (N = 100)) := by
  intro fuel
  induction fuel with
  | zero =>
    intro page acc reqs hf hp _
    omega
  | succ fuel ih =>
    intro page acc reqs hf hp hfull
    rcases Nat.lt_or_eq_of_le hp with hlt | heq
    · rw [fetchLoop_step_full (by omega) (hfull page le_rfl hlt)]
      rw [ih (page + 1) _ _ (by omega) (by omega)
        (fun p hp1 hp2 => hfull p (by omega) hp2)]
      congr 1
      omega
    · subst heq
      by_cases h100 : page = 100
      · subst h100
        rw [fetchLoop_step_ceiling (by omega)]
        simp
      · rw [fetchLoop_step_short (by omega) (by omega)]
        simp [h100]

/-- Request count against a server whose pages 0 through 100 are all
full: the ceiling stops the loop after 101 requests, warning logged. -/
theorem fetchLoop_count_full (server : Nat → List RawTask)
    (hfull : ∀ p, p ≤ 100 → (server p).length = 100) :
    ∀ (fuel page : Nat) (acc : List RawTask) (reqs : Nat),
      fuel + page = 101 → page ≤ 100 →
      (fetchLoop server fuel page acc reqs).2 = (reqs + (101 - page), true) := by
  intro fuel
  induction fuel with
  | zero =>
    intro page acc reqs hf hp
    omega
  | succ fuel ih =>
    intro page acc reqs hf hp
    by_cases h100 : page = 100
    · subst h100
      rw [fetchLoop_step_ceiling (by omega)]
    · rw [fetchLoop_step_full (by omega) (hfull page hp)]
      rw [ih (page + 1) _ _ (by omega) (by omega)]
      congr 1
      omega

/-- C3 (amended): pagination starts at page 0 with fixed page size 100
and stops at the first short page; a server returning `N ≤ 100` full
pages followed by a short (possibly 0-sized) page receives exactly `N+1`
requests, the ceiling warning firing only in the boundary case `N = 100`;
against an adversarial server whose pages are all full, the `page > 100`
safety check terminates the loop with a logged warning after exactly 101
requests (pages 0 through 100) — an effective ceiling of 101 pages, not
100. -/
theorem C3_pagination :
    ∀ (server : Nat → List RawTask) (N : Nat),
      ((∀ p, p < N → (server p).length = 100) → N ≤ 100 →
        (server N).length < 100 →
        (fetchAllPages server).2.1 = N + 1 ∧
          (fetchAllPages server).2.2 = decide (N = 100)) ∧
      ((∀ p, p ≤ 100 → (server p).length = 100) →
        (fetchAllPages server).2.1 = 101 ∧
          (fetchAllPages server).2.2 = true) := by
  intro server N
  constructor
  · intro hfull hN hshort
    have h := fetchLoop_count_short server N hshort hN 101 0 [] 0 rfl
      (by omega) (fun p hp1 hp2 => hfull p hp2)
    constructor
    · have h1 := congrArg Prod.fst h
      simpa using h1
    · exact congrArg Prod.snd h
  · intro hfull
    have h := fetchLoop_count_full server hfull 101 0 [] 0 rfl (by omega)
    constructor
    · have h1 := congrArg Prod.fst h
      simpa using h1
    · exact congrArg Prod.snd h

/-- C3 counterexample: a server returning 101 full pages (0 through 100)
and then a 0-sized page receives 101 requests, not the 102 the claim's
`N+1` rule predicts; the loop stops at the `page > 100` check with the
warning. -/
theorem C3_counterexample :
    ((List.range 101).all (fun p => (cexServer p).length == 100)) = true ∧
    (cexServer 101).length < 100 ∧
    (fetchAllPages cexServer).2.1 = 101 ∧
    (fetchAllPages cexServer).2.2 = true ∧
    (fetchAllPages cexServer).2.1 ≠ 101 + 1 := by
  have hfull : ∀ p, p ≤ 100 → (cexServer p).length = 100 := by
    intro p hp
    simp [cexServer, fullPage, Nat.lt_succ_of_le hp]
  have h := fetchLoop_count_full cexServer hfull 101 0 [] 0 rfl (by omega)
  refine ⟨by decide, by simp [cexServer], ?_, ?_, ?_⟩
  · simpa using congrArg Prod.fst h
  · exact congrArg Prod.snd h
  · have h1 := congrArg Prod.fst h
    simp at h1
    have h2 : (fetchAllPages cexServer).2.1 = 101 := h1
    omega

/-- C3 witness: one full page then a 0-sized page yields exactly two
requests and no ceiling warning. -/
theorem C3_witness :
    (fetchAllPages witServer).2.1 = 1 + 1 ∧
    (fetchAllPages witServer).2.2 = decide ((1 : Nat) = 100) :=
  (C3_pagination witServer 1).1
    (fun p hp => by
      have hp0 : p = 0 := by omega
      subst hp0
      simp [witServer, fullPage])
    (by omega)
    (by simp [witServer])

/-- C4 (amended): on a successful start the registry entry for `taskId`
with start instant `now` is inserted; a response failure other than a 400
whose message contains `"already running"` surfaces as a start failure
with the remote message; a 400 already-running response triggers the
recovery — `stopTimeTracking` (which resolves and clears the tracked
task) followed by a recursive re-invocation of the whole start — so the
stop-then-retry repeats for every consecutive already-running response
rather than happening exactly once; when the stop succeeds and the
retried start succeeds, the run ends with the registry entry for
`taskId` (starting `B` while `A` is tracked yields exactly `{B}`). -/
theorem C4_start_recovery :
    ∀ (env : TimerEnv) (taskId msg : String) (rest : List (HttpResp Unit))
      (st : SvcState),
      env.hasToken = true → env.teams ≠ [] →
      (startTimeTracking env taskId (.ok () :: rest) st =
        (.ok (), rest, { st with reg := st.reg.insert taskId env.now })) ∧
      (∀ status : Nat,
        ((status == 400) && strIncludes msg "already running") = false →
        startTimeTracking env taskId (.errStatus status msg :: rest) st =
          (.error (.startFailed msg), rest, st)) ∧
      (strIncludes msg "already running" = true →
        startTimeTracking env taskId (.errStatus 400 msg :: rest) st =
          (match stopTimeTracking env st with
            | (.ok _, st2) => startTimeTracking env taskId rest st2
            | (.error e, st2) => (.error e, rest, st2))) := by
  intro env taskId msg rest st htok hteams
  refine ⟨?_, ?_, ?_⟩
  · simp [startTimeTracking, htok, hteams]
  · intro status hc
    simp [startTimeTracking, htok, hteams, hc]
  · intro hinc
    simp [startTimeTracking, htok, hteams, hinc]

/-- C4 counterexample: with the remote answering the start endpoint
already-running, already-running, then success, the call recovers twice
(three start requests, two stop cycles) and still succeeds with registry
`{B}` — the retry is not limited to exactly once, and the second
already-running response does not surface as an error. -/
theorem C4_counterexample :
    arResp = .errStatus 400 "Timer is already running" ∧
    startTimeTracking envT "B" [arResp, arResp, .ok ()] stC4 =
      (.ok (), [], ⟨[("B", 0)], [], []⟩) :=
  ⟨rfl, rfl⟩

/-- C4 witness: the start-then-switch scenario — starting `B` while `A`
is tracked takes the recovery path (stop resolves and clears `A`), and
the retried start yields registry exactly `{B}` with start instant
`now`. -/
theorem C4_witness :
    startTimeTracking envT "B" [.errStatus 400 "Timer is already running",
        .ok ()] stWit =
      (match stopTimeTracking envT stWit with
        | (.ok _, st2) => startTimeTracking envT "B" [.ok ()] st2
        | (.error e, st2) => (.error e, [.ok ()], st2)) ∧
    startTimeTracking envT "B" [.errStatus 400 "Timer is already running",
        .ok ()] stWit = (.ok (), [], ⟨[("B", 0)], [], []⟩) :=
  ⟨(C4_start_recovery envT "B" "Timer is already running" [.ok ()] stWit
      rfl (by simp [envT])).2.2 (by decide), rfl⟩

/-- Deleting entries never makes a key present: `Map.delete` preserves
the absence of any key. -/
theorem erase_hasKey_false (r : Registry) (k t : String)
    (h : r.hasKey k = false) : (r.erase t).hasKey k = false := by
  cases hk : (r.erase t).hasKey k
  · rfl
  · exfalso
    have hx : ∃ p, p ∈ r.erase t ∧ (p.1 == k) = true := by
      simpa [Registry.hasKey, List.any_eq_true] using hk
    rcases hx with ⟨p, hp, hpk⟩
    have hpr : p ∈ r := by
      have hp2 : p ∈ r.filter (fun q => q.1 != t) := hp
      exact (List.mem_filter.mp hp2).1
    have hkt : r.hasKey k = true := by
      unfold Registry.hasKey
      rw [List.any_eq_true]
      exact ⟨p, hpr, hpk⟩
    rw [hkt] at h
    cases h

/-- `stopTimeTracking` never adds a registry key: a key absent before the
call is absent afterwards, in every outcome. -/
theorem stop_no_new_key (env : TimerEnv) (st : SvcState) (k : String)
    (h : st.reg.hasKey k = false) :
    ((stopTimeTracking env st).2).reg.hasKey k = false := by
  by_cases h1 : env.hasToken = false
  · simpa [stopTimeTracking, h1] using h
  by_cases h2 : env.teams = []
  · simpa [stopTimeTracking, h1, h2] using h
  rcases hc : nextResp st.currentScript with ⟨cresp, cs⟩
  rcases hs : nextResp st.stopScript with ⟨sresp, ss⟩
  cases sresp with
  | ok v =>
    rcases hcur : getCurrentTimeEntryTaskId cresp with _ | tid
    · by_cases hemp : st.reg = []
      · simp [stopTimeTracking, h1, h2, hc, hs, hcur, hemp, Registry.hasKey]
      · have : st.reg.isEmpty = false := by
          cases hre : st.reg
          · exact absurd hre hemp
          · rfl
        simp [stopTimeTracking, h1, h2, hc, hs, hcur, this, Registry.hasKey]
    · simpa [stopTimeTracking, h1, h2, hc, hs, hcur] using
        erase_hasKey_false st.reg k tid h
  | errStatus status msg =>
    by_cases hb : (status == 400 || status == 404) = true
    · simpa [stopTimeTracking, h1, h2, hc, hs, hb] using h
    · have hbf : (status == 400 || status == 404) = false := by
        simpa using hb
      simpa [stopTimeTracking, h1, h2, hc, hs, hbf] using h
  | noResponse msg =>
    simpa [stopTimeTracking, h1, h2, hc, hs] using h

/-- C10 (amended): if `startTimeTracking` returns an error, no registry
entry for `taskId` has been inserted by that call — insertion happens
only after the remote start request has succeeded, never before; the
recovery path's intermediate stop may however have removed other
entries, so the registry is not necessarily exactly as it was. -/
theorem C10_no_insert_on_failure :
    ∀ (env : TimerEnv) (taskId : String) (script : List (HttpResp Unit))
      (st : SvcState) (e : SvcError),
      st.reg.hasKey taskId = false →
      (startTimeTracking env taskId script st).1 = .error e →
      ((startTimeTracking env taskId script st).2.2).reg.hasKey taskId
        = false := by
  intro env taskId script
  induction script with
  | nil =>
    intro st e h herr
    by_cases h1 : env.hasToken = false
    · simpa [startTimeTracking, h1] using h
    by_cases h2 : env.teams = []
    · simpa [startTimeTracking, h1, h2] using h
    · simpa [startTimeTracking, h1, h2] using h
  | cons r rest ih =>
    intro st e h herr
    by_cases h1 : env.hasToken = false
    · cases r <;> simpa [startTimeTracking, h1] using h
    by_cases h2 : env.teams = []
    · cases r <;> simpa [startTimeTracking, h1, h2] using h
    cases r with
    | ok v =>
      simp [startTimeTracking, h1, h2] at herr
    | errStatus status msg =>
      by_cases hcb : ((status == 400) && strIncludes msg "already running")
          = true
      · rcases hstop : stopTimeTracking env st with ⟨res, st2⟩
        have hkey2 : st2.reg.hasKey taskId = false := by
          have hpres := stop_no_new_key env st taskId h
          rw [hstop] at hpres
          exact hpres
        cases res with
        | ok cur =>
          have heq : startTimeTracking env taskId
              (.errStatus status msg :: rest) st
              = startTimeTracking env taskId rest st2 := by
            simp [startTimeTracking, h1, h2, hcb, hstop]
          rw [heq] at herr ⊢
          exact ih st2 e hkey2 herr
        | error e2 =>
          have heq : startTimeTracking env taskId
              (.errStatus status msg :: rest) st
              = (.error e2, rest, st2) := by
            simp [startTimeTracking, h1, h2, hcb, hstop]
          rw [heq]
          exact hkey2
      · have hcf : ((status == 400) && strIncludes msg "already running")
            = false := by simpa using hcb
        have heq : startTimeTracking env taskId
            (.errStatus status msg :: rest) st
            = (.error (.startFailed msg), rest, st) := by
          simp [startTimeTracking, h1, h2, hcf]
        rw [heq]
        exact h
    | noResponse msg =>
      have heq : startTimeTracking env taskId (.noResponse msg :: rest) st
          = (.error (.rawError msg), rest, st) := by
        simp [startTimeTracking, h1, h2]
      rw [heq]
      exact h

/-- C10 counterexample: starting `B` while `A` is tracked, with the
retried start failing 500, throws — yet the registry changed from
`{A}` to `{}` because the recovery's stop already cleared `A` before the
failing retry; the registry is not left exactly as before the call. -/
theorem C10_counterexample :
    stC10.reg = [("A", 5)] ∧
    startTimeTracking envT "B" [arResp, .errStatus 500 "boom"] stC10 =
      (.error (.startFailed "boom"), [], ⟨[], [], []⟩) :=
  ⟨rfl, rfl⟩

/-- C10 witness: in the same failing run, no entry for `B` was inserted. -/
theorem C10_witness :
    ((startTimeTracking envT "B" [arResp, .errStatus 500 "boom"]
        stC10).2.2).reg.hasKey "B" = false :=
  C10_no_insert_on_failure envT "B" [arResp, .errStatus 500 "boom"] stC10
    (.startFailed "boom") (by decide) rfl

end ClickUp
